import Mathlib

/-!
Verification of the Bright Data Python SDK (karaposu/sdk-python) against its
natural-language specification.  The SDK's scraper classes share a
trigger→poll→fetch workflow; this development embeds the pure content of the
relevant methods (parameter normalization, batch fan-out, validation, error
translation, schema round-trips, and the sync wrappers) as Lean definitions
and proves the specification's claims about them.
-/

set_option maxHeartbeats 1000000

namespace BrightData

/-- A Python/JSON value as passed through the SDK: `None`, booleans, integers,
strings, lists and (string-keyed, insertion-ordered) dictionaries. -/
inductive PyVal where
  | none : PyVal
  | bool (b : Bool) : PyVal
  | int (n : Int) : PyVal
  | str (s : String) : PyVal
  | list (xs : List PyVal) : PyVal
  | dict (kvs : List (String × PyVal)) : PyVal

/-- Boolean test for `None` (used where the SDK tests `is not None`). -/
def isNone : PyVal → Bool
  | .none => true
  | _ => false

/-- Python truthiness (`bool(v)`): `None`, `False`, `0`, empty strings and
empty containers are falsy. -/
def pyTruthy : PyVal → Bool
  | .none => false
  | .bool b => b
  | .int n => n != 0
  | .str s => !s.isEmpty
  | .list xs => !xs.isEmpty
  | .dict kvs => !kvs.isEmpty

/-- Python `str.upper()` lifted to `PyVal`; in the SDK it is only reached on
string values (`countries[i].upper()` after a truthiness check on a value of
annotated type `Optional[Union[str, List[str]]]`), so non-strings — on which
Python would raise `AttributeError` — are left unchanged here. -/
def pyUpper : PyVal → PyVal
  | .str s => .str s.toUpper
  | v => v

/-- First-match association-list lookup, the model of `dict.get` on a
duplicate-free key list. -/
def alistLookup (k : String) : List (String × PyVal) → Option PyVal
  | [] => Option.none
  | kv :: rest => if kv.1 = k then Option.some kv.2 else alistLookup k rest

/-- Body of `PerplexityScraper._normalize_param` and
`TikTokScraper._normalize_param` (identical): normalize a parameter to a list of
`target_length` values.  `None` and non-`str`/`bool`/`int`/`list` values give
`[default_value] * target_length`; scalars are repeated; lists are truncated
or padded with their last element (or the default when empty). -/
def normalize_param (param : PyVal) (target_length : Nat) (default_value : PyVal) :
    List PyVal :=
  match param with
  | .none => List.replicate target_length default_value
  | .str s => List.replicate target_length (.str s)
  | .bool b => List.replicate target_length (.bool b)
  | .int n => List.replicate target_length (.int n)
  | .list l =>
      if l.length < target_length then
        let last_val := l.getLast?.getD default_value
        l ++ List.replicate (target_length - l.length) last_val
      else
        l.take target_length
  | .dict _ => List.replicate target_length default_value

/-- Modelled from the spec: `brightdata/models.py` (the `ScrapeResult` wrapper)
is not under src/.  The spec describes the data model as "pass-through JSON
dictionaries ... optionally mapped into typed result/record wrapper objects";
the fields here are exactly those the in-src call sites construct and read
(`TikTokScraper._scrape_urls` passes `success`, `data`, `url`, `platform`,
`method`, the four timestamps, `snapshot_id` and `cost`; the executor's
timeout path surfaces an `error`).  `cost` is a vendor price, kept exact as a
rational. -/
structure ScrapeResult where
  success : Bool
  data : PyVal
  url : Option String := Option.none
  platform : String := ""
  method : String := ""
  trigger_sent_at : Option String := Option.none
  snapshot_id_received_at : Option String := Option.none
  snapshot_polled_at : Option String := Option.none
  data_fetched_at : Option String := Option.none
  snapshot_id : Option String := Option.none
  cost : Option ℚ := Option.none
  error : Option String := Option.none

/-- Python truthiness of a `cost` field (`if result.cost`): `None` and `0`
are falsy. -/
def costTruthy : Option ℚ → Bool
  | Option.none => false
  | Option.some c => c != 0

/-- One observable step of the workflow executor: the HTTP trigger request
(carrying its JSON payload), a status re-check, a sleep of `n` seconds, or
the results fetch. -/
inductive WfEvent where
  | triggerReq (payload : List PyVal) : WfEvent
  | statusReq : WfEvent
  | sleepSec (n : Nat) : WfEvent
  | fetchReq : WfEvent

def isTriggerEvent : WfEvent → Bool
  | .triggerReq _ => true
  | _ => false

def isStatusEvent : WfEvent → Bool
  | .statusReq => true
  | _ => false

def isFetchEvent : WfEvent → Bool
  | .fetchReq => true
  | _ => false

/-- Environment of one remote scrape job: when the vendor reports the job
ready (as a function of elapsed seconds), the raw data the fetch returns, and
the metadata the executor records on the result. -/
structure WfEnv where
  readyAt : Nat → Bool
  raw : PyVal
  platform : String := ""
  method : String := ""
  triggerSentAt : Option String := Option.none
  snapshotIdReceivedAt : Option String := Option.none
  snapshotPolledAt : Option String := Option.none
  dataFetchedAt : Option String := Option.none
  snapshotId : Option String := Option.none
  cost : Option ℚ := Option.none

/-- Modelled from the spec: the shared polling loop of the workflow executor
(`brightdata/scrapers/workflow.py` is not under src/; only its call sites
are).  Per the spec it is "a thin loop (send request, sleep, re-check status,
fetch once ready, normalize)": with `k` status checks still allowed, check
the status; if ready, stop and report the ready time; otherwise sleep
`interval` seconds and re-check, giving up (timeout) when the check budget is
exhausted.  Returns the emitted events and the elapsed time at which the job
was seen ready, if any. -/
def pollPhase (ready : Nat → Bool) (interval : Nat) :
    Nat → Nat → List WfEvent × Option Nat
  | 0, _ => ([], Option.none)
  | k + 1, elapsed =>
      if ready elapsed then ([.statusReq], Option.some elapsed)
      else if k = 0 then ([.statusReq], Option.none)
      else
        let rest := pollPhase ready interval k (elapsed + interval)
        (.statusReq :: .sleepSec interval :: rest.1, rest.2)

/-- Number of status checks the loop may perform within `timeout` seconds
when sleeping `interval` seconds between checks: one check at elapsed time
`j * interval` for every `j ≤ timeout / interval`. -/
def maxChecks (interval timeout : Nat) : Nat := timeout / interval + 1

/-- Modelled from the spec: `WorkflowExecutor.execute` (not under src/).  It
"triggers a remote scrape job, polls for completion, fetches results,
normalizes" and stops "(surfacing a timeout error) if the job is not ready
within poll_timeout seconds": send the one trigger request with the payload,
run the polling loop, and on success fetch once and apply `normalize_func`
to the raw data; on timeout surface an error on the result. -/
def workflowExecute (env : WfEnv) (payload : List PyVal)
    (poll_interval poll_timeout : Nat) (normalize_func : PyVal → PyVal) :
    List WfEvent × ScrapeResult :=
  let poll := pollPhase env.readyAt poll_interval
    (maxChecks poll_interval poll_timeout) 0
  match poll.2 with
  | Option.some _ =>
      (.triggerReq payload :: poll.1 ++ [.fetchReq],
       { success := true, data := normalize_func env.raw,
         platform := env.platform, method := env.method,
         trigger_sent_at := env.triggerSentAt,
         snapshot_id_received_at := env.snapshotIdReceivedAt,
         snapshot_polled_at := env.snapshotPolledAt,
         data_fetched_at := env.dataFetchedAt,
         snapshot_id := env.snapshotId, cost := env.cost })
  | Option.none =>
      (.triggerReq payload :: poll.1,
       { success := false, data := .none,
         platform := env.platform, method := env.method,
         trigger_sent_at := env.triggerSentAt,
         snapshot_id_received_at := env.snapshotIdReceivedAt,
         snapshot_polled_at := env.snapshotPolledAt,
         data_fetched_at := env.dataFetchedAt,
         snapshot_id := env.snapshotId,
         error := Option.some "Timeout: job not ready within poll_timeout seconds" })

/-- Modelled from the spec: the polling defaults of the `constants` module
(absent from src/), taken from the scrapers' docstrings ("default: 10" for
the poll interval, "default: 180" and "default: 240" for the short and
medium timeouts). -/
def DEFAULT_POLL_INTERVAL : Nat := 10

/-- Modelled from the spec: short poll timeout default (Perplexity). -/
def DEFAULT_TIMEOUT_SHORT : Nat := 180

/-- Modelled from the spec: medium poll timeout default (TikTok). -/
def DEFAULT_TIMEOUT_MEDIUM : Nat := 240

/-- A `Union[str, List[str]]` argument: a single URL string, or a list. -/
inductive UrlArg where
  | single (u : String)
  | many (us : List String)

/-- Return shape of the URL scrapers: one `ScrapeResult` or a batch list. -/
inductive ScrapeOutput where
  | one (r : ScrapeResult)
  | many (rs : List ScrapeResult)

namespace TikTokScraper

/-- Post-processing of the workflow result by `TikTokScraper._scrape_urls`:
a single string URL with a one-element data list is unwrapped in place (the
result's `url` is set to the input and `data` to the lone item); a list URL
argument with list data is fanned out to one fresh `ScrapeResult` per
`zip`-ped (url, item) pair with `success=True` and the cost split over the
data items (`None` when the total cost is falsy); anything else is returned
unchanged. -/
def scrapeUrlsPost (url : UrlArg) (result : ScrapeResult) : ScrapeOutput :=
  match url, result.data with
  | .single u, .list [d] =>
      .one { result with url := Option.some u, data := d }
  | .many us, .list ds =>
      .many ((us.zip ds).map fun ud =>
        { success := true, data := ud.2, url := Option.some ud.1,
          platform := result.platform, method := result.method,
          trigger_sent_at := result.trigger_sent_at,
          snapshot_id_received_at := result.snapshot_id_received_at,
          snapshot_polled_at := result.snapshot_polled_at,
          data_fetched_at := result.data_fetched_at,
          snapshot_id := result.snapshot_id,
          cost := if costTruthy result.cost then
                    result.cost.map (fun c => c / (ds.length : ℚ))
                  else Option.none })
  | _, _ => .one result

/-- `TikTokScraper._scrape_urls` end to end: build the one payload with a
`{"url": u, "country": country or ""}` item per URL, run the shared workflow
executor on it once, and post-process the result.  `normalize_func` stands
for the inherited `self.normalize_result` (its definition, on
`BaseWebScraper`, is not under src/). -/
def scrape_urls (env : WfEnv) (normalize_func : PyVal → PyVal) (url : UrlArg)
    (timeout : Nat) (country : Option String) : List WfEvent × ScrapeOutput :=
  let url_list := match url with | .single u => [u] | .many us => us
  let payload := url_list.map fun u =>
    PyVal.dict [("url", .str u), ("country", .str (country.getD ""))]
  let er := workflowExecute env payload DEFAULT_POLL_INTERVAL timeout normalize_func
  (er.1, scrapeUrlsPost url er.2)

/-- `TikTokScraper.profiles`: validate the URL argument (with `validate_url`
or `validate_url_list`, whose definitions in `utils/validation` are not under
src/ and are therefore parameters here), then scrape via `_scrape_urls`. -/
def profiles (env : WfEnv) (normalize_func : PyVal → PyVal)
    (validate_url : String → Except String Unit)
    (validate_url_list : List String → Except String Unit)
    (url : UrlArg) (country : Option String) (timeout : Nat) :
    Except String (List WfEvent × ScrapeOutput) :=
  match url with
  | .single u => do
      validate_url u
      pure (scrape_urls env normalize_func url timeout country)
  | .many us => do
      validate_url_list us
      pure (scrape_urls env normalize_func url timeout country)

end TikTokScraper

/-- Bookkeeping for `async with self.engine`: how many times the engine
context was entered and exited. -/
structure EngineTrace where
  enters : Nat
  exits : Nat

/-- An awaited computation threaded through the engine context state (the
shallow model of a coroutine run by an event loop). -/
def AsyncM (α : Type) : Type := EngineTrace → α × EngineTrace

/-- Awaiting a coroutine whose value is `a` (no engine state change). -/
def asyncAwait (a : α) : AsyncM α := fun s => (a, s)

/-- Model of `async with self.engine: body` — enter the engine context, run
the body, exit. -/
def withEngine (body : AsyncM α) : AsyncM α := fun s =>
  let r := body { s with enters := s.enters + 1 }
  (r.1, { r.2 with exits := r.2.exits + 1 })

/-- Model of `asyncio.run(coro())` on a fresh event loop: run the coroutine
to completion from a fresh engine trace and return its value. -/
def asyncioRun (m : AsyncM α) : α := (m ⟨0, 0⟩).1

namespace TikTokScraper

/-- `TikTokScraper.profiles_sync`: `asyncio.run` of `async with self.engine:
return await self.profiles(url, country, timeout)`. -/
def profiles_sync (env : WfEnv) (normalize_func : PyVal → PyVal)
    (validate_url : String → Except String Unit)
    (validate_url_list : List String → Except String Unit)
    (url : UrlArg) (country : Option String) (timeout : Nat) :
    Except String (List WfEvent × ScrapeOutput) :=
  asyncioRun (withEngine (asyncAwait
    (profiles env normalize_func validate_url validate_url_list url country timeout)))

end TikTokScraper

/-- Typed SDK exceptions raised by the scraper entry points. -/
inductive SdkError where
  | validationError (message : String)

/-- A `Union[str, List[str]]` prompt argument (the annotated domain of
`PerplexityScraper.search`); list items may be arbitrary values, which the
validation loop checks. -/
inductive PromptArg where
  | str (s : String)
  | list (l : List PyVal)

/-- The prompt argument as the Python value tested by `if not prompt`. -/
def promptPyVal : PromptArg → PyVal
  | .str s => .str s
  | .list l => .list l

/-- Result of `prompts = [prompt] if isinstance(prompt, str) else prompt`. -/
def promptList : PromptArg → List PyVal
  | .str s => [.str s]
  | .list l => l

/-- One prompt item passes the loop `if not p or not isinstance(p, str)`
exactly when it is a non-empty string. -/
def validPromptItem : PyVal → Bool
  | .str s => !s.isEmpty
  | _ => false

namespace PerplexityScraper

/-- `PerplexityScraper.search`: reject a falsy prompt, normalize `country`,
`index` and `export_markdown_file` to the batch size, reject empty or
non-string prompt items, build one payload item per prompt (fixed url,
upper-cased country when truthy, `index`/`export_markdown_file` when not
`None`), execute the shared workflow with `poll_timeout or MIN_POLL_TIMEOUT`,
and pin the result's `url` to `https://www.perplexity.ai`.  `normalize_func`
stands for the inherited `self.normalize_result` (defined on
`BaseWebScraper`, not under src/). -/
def search (env : WfEnv) (normalize_func : PyVal → PyVal)
    (prompt : PromptArg) (country index export_markdown_file : PyVal)
    (poll_interval : Nat) (poll_timeout : Option Nat) :
    Except SdkError (List WfEvent × ScrapeResult) :=
  if !pyTruthy (promptPyVal prompt) then
    .error (.validationError "Prompt is required")
  else
    let prompts := promptList prompt
    let batch_size := prompts.length
    let countries := normalize_param country batch_size (.str "US")
    let indices := normalize_param index batch_size .none
    let export_markdowns := normalize_param export_markdown_file batch_size .none
    if !(prompts.all validPromptItem) then
      .error (.validationError "Each prompt must be a non-empty string")
    else
      let payload := (List.range batch_size).map fun i =>
        PyVal.dict
          ([("url", .str "https://www.perplexity.ai"),
            ("prompt", prompts.getD i .none)]
           ++ (if pyTruthy (countries.getD i .none) then
                 [("country", pyUpper (countries.getD i .none))] else [])
           ++ (if !isNone (indices.getD i .none) then
                 [("index", indices.getD i .none)] else [])
           ++ (if !isNone (export_markdowns.getD i .none) then
                 [("export_markdown_file", export_markdowns.getD i .none)] else []))
      let timeout := match poll_timeout with
        | Option.some t => if t != 0 then t else DEFAULT_TIMEOUT_SHORT
        | Option.none => DEFAULT_TIMEOUT_SHORT
      let er := workflowExecute env payload poll_interval timeout normalize_func
      .ok (er.1, { er.2 with url := Option.some "https://www.perplexity.ai" })

/-- `PerplexityScraper.search_sync`: `asyncio.run` of `async with
self.engine: return await self.search(...)`. -/
def search_sync (env : WfEnv) (normalize_func : PyVal → PyVal)
    (prompt : PromptArg) (country index export_markdown_file : PyVal)
    (poll_interval : Nat) (poll_timeout : Option Nat) :
    Except SdkError (List WfEvent × ScrapeResult) :=
  asyncioRun (withEngine (asyncAwait
    (search env normalize_func prompt country index export_markdown_file
      poll_interval poll_timeout)))

end PerplexityScraper

/-- A vendor HTTP response as the trigger helper reads it: the status code,
the parsed JSON body (for the 200 path) and the raw text (for the error
path). -/
structure HttpResponse where
  status : Nat
  jsonBody : List (String × PyVal)
  text : String

/-- The SDK's `APIError` exception: a message and the vendor HTTP status. -/
structure APIError where
  message : String
  status_code : Nat

namespace LinkedInScraper

/-- `LinkedInScraper._trigger_async_with_dataset` (new-sdk), response
handling: on HTTP 200 return `data.get("snapshot_id")` from the JSON body
(`None` when absent); otherwise raise
`APIError(f"Trigger failed (HTTP {status}): {text}", status_code=status)`. -/
def trigger_async_with_dataset (resp : HttpResponse) :
    Except APIError (Option PyVal) :=
  if resp.status = 200 then
    .ok (alistLookup "snapshot_id" resp.jsonBody)
  else
    .error { message := "Trigger failed (HTTP " ++ toString resp.status ++ "): "
                          ++ resp.text,
             status_code := resp.status }

end LinkedInScraper

namespace AmazonScraper

/-- `AmazonScraper.normalize_result` (new-sdk): non-list data is returned
as-is, and list data is passed through unchanged. -/
def normalize_result (data : PyVal) : PyVal :=
  match data with
  | .list xs => .list xs
  | d => d

end AmazonScraper

/-- The field names of the `AmazonProductResult` dataclass, in declaration
order (all 74, including the vendor's `sponsered` typo). -/
def amazonFields : List String :=
  ["title", "brand", "description", "manufacturer", "department",
   "model_number",
   "asin", "parent_asin", "upc",
   "url", "domain", "image_url", "image", "seller_url", "store_url",
   "currency", "final_price_high", "prices_breakdown",
   "other_sellers_prices", "coupon", "coupon_description",
   "rating", "reviews_count", "top_review", "customer_says",
   "customers_say", "answered_questions",
   "seller_name", "seller_id", "number_of_sellers", "ships_from",
   "buybox_seller_rating", "inactive_buy_box",
   "categories", "root_bs_category", "bs_category", "root_bs_rank",
   "bs_rank", "subcategory_rank",
   "features", "product_details", "product_description",
   "product_dimensions", "item_weight", "country_of_origin",
   "date_first_available", "language",
   "images", "images_count", "video", "videos", "video_count",
   "downloadable_videos",
   "is_available", "max_quantity_available", "amazon_choice",
   "amazon_prime", "badge", "all_badges", "premium_brand",
   "climate_pledge_friendly",
   "plus_content", "from_the_brand", "editorial_reviews",
   "about_the_author", "sustainability_features", "return_policy",
   "variations_values",
   "zipcode", "city", "sponsored", "sponsered", "timestamp", "input"]

/-- An `AmazonProductResult` instance: every dataclass field, in declaration
order, paired with its value (`None` by default). -/
abbrev AmazonProductResult : Type := List (String × PyVal)

namespace AmazonProductResult

/-- Dataclass construction `cls(**kwargs)`: raises `TypeError` when a keyword
is not a field name, otherwise each field takes the given value or its
`None` default. -/
def dataclassInit (kwargs : List (String × PyVal)) :
    Except String AmazonProductResult :=
  if kwargs.all (fun kv => amazonFields.contains kv.1) then
    .ok (amazonFields.map fun f => (f, (alistLookup f kwargs).getD .none))
  else
    .error "TypeError: unexpected keyword argument"

/-- `AmazonProductResult.from_dict`: keep only the keys that are field names,
then construct the dataclass from the filtered dictionary. -/
def from_dict (data : List (String × PyVal)) :
    Except String AmazonProductResult :=
  dataclassInit (data.filter fun kv => amazonFields.contains kv.1)

/-- `AmazonProductResult.to_dict`: `asdict(self)` (fields in declaration
order) with the `None` values dropped. -/
def to_dict (r : AmazonProductResult) : List (String × PyVal) :=
  r.filter fun kv => !isNone kv.2

end AmazonProductResult

/-- Whether an asyncio event loop is currently running in this thread. -/
inductive LoopState where
  | running
  | notRunning

/-- Model of `asyncio.get_running_loop()`: succeeds when a loop is running,
raises `RuntimeError` otherwise. -/
def get_running_loop : LoopState → Except String Unit
  | .running => .ok ()
  | .notRunning => .error "no running event loop"

/-- Model of `asyncio.run(coro())` where the coroutine (here, running
`_execute_async` inside the engine context) produces `v`: raises
`RuntimeError` when called while an event loop is already running, otherwise
runs the coroutine to completion. -/
def asyncio_run (loop : LoopState) (v : PyVal) : Except String PyVal :=
  match loop with
  | .running => .error "asyncio.run() cannot be called from a running event loop"
  | .notRunning => .ok v

namespace BaseAPI

/-- `BaseAPI._execute_sync`, with `v` the value `_execute_async` produces.
The `try` suite calls `asyncio.get_running_loop()` and, when that succeeds,
raises the guard `RuntimeError`; the `except RuntimeError` handler — which
also catches that guard — calls `asyncio.run` on the engine-wrapped
coroutine.  The first component records whether `asyncio.run` was invoked;
the `.ok` fall-through branch (returning Python `None`) is unreachable since
both paths of the `try` suite raise `RuntimeError`. -/
def execute_sync (loop : LoopState) (v : PyVal) :
    Bool × Except String PyVal :=
  let tryBlock : Except String Unit :=
    match get_running_loop loop with
    | .ok _ => .error "Cannot call sync method from async context. Use async method instead."
    | .error e => .error e
  match tryBlock with
  | .error _ => (true, asyncio_run loop v)
  | .ok _ => (false, .ok .none)

end BaseAPI

/-! ## Theorems -/

/-- C7: Normalization is pass-through for Amazon — `normalize_result`
returns every input value unchanged (lists are passed through, non-lists are
returned as-is), so the wrapper's normalized object equals the raw response
data. -/
theorem amazon_normalize_result_id (data : PyVal) :
    AmazonScraper.normalize_result data = data := by
  cases data <;> rfl

/-- C8: `_normalize_param` (identical in the Perplexity and TikTok scrapers)
always returns a list of length exactly `target_length`: `[default] * n` for
`None` and for values that are not `str`/`bool`/`int`/`list`, `[param] * n`
for scalars, the first `n` elements of a long list, and a short list padded
with copies of its last element (or the default when the list is empty). -/
theorem normalize_param_spec (param : PyVal) (n : Nat) (d : PyVal) :
    (normalize_param param n d).length = n ∧
    normalize_param .none n d = List.replicate n d ∧
    (∀ s, normalize_param (.str s) n d = List.replicate n (.str s)) ∧
    (∀ b, normalize_param (.bool b) n d = List.replicate n (.bool b)) ∧
    (∀ m, normalize_param (.int m) n d = List.replicate n (.int m)) ∧
    (∀ kvs, normalize_param (.dict kvs) n d = List.replicate n d) ∧
    (∀ l : List PyVal, n ≤ l.length →
      normalize_param (.list l) n d = l.take n) ∧
    (∀ l : List PyVal, l.length < n →
      normalize_param (.list l) n d
        = l ++ List.replicate (n - l.length) (l.getLast?.getD d)) := by
  refine ⟨?_, rfl, fun s => rfl, fun b => rfl, fun m => rfl, fun kvs => rfl,
    fun l h => ?_, fun l h => ?_⟩
  · cases param with
    | none => simp [normalize_param]
    | bool b => simp [normalize_param]
    | int m => simp [normalize_param]
    | str s => simp [normalize_param]
    | dict kvs => simp [normalize_param]
    | list l =>
        by_cases h : l.length < n
        · simp only [normalize_param, if_pos h, List.length_append,
            List.length_replicate]
          omega
        · simp only [normalize_param, if_neg h, List.length_take]
          omega
  · simp only [normalize_param, if_neg (Nat.not_lt.mpr h)]
  · simp only [normalize_param, if_pos h]

/-- Witness for C8 at a concrete short list: padding a two-element list to
length four repeats its last element. -/
theorem normalize_param_spec_witness :
    (normalize_param (.list [.int 1, .int 2]) 4 (.int 0)).length = 4 ∧
    normalize_param (.list [.int 1, .int 2]) 4 (.int 0)
      = [PyVal.int 1, PyVal.int 2]
          ++ List.replicate (4 - [PyVal.int 1, PyVal.int 2].length)
               ([PyVal.int 1, PyVal.int 2].getLast?.getD (.int 0)) := by
  have h := normalize_param_spec (.list [.int 1, .int 2]) 4 (.int 0)
  exact ⟨h.1, h.2.2.2.2.2.2.2 [.int 1, .int 2] (by decide)⟩

/-- C3: `LinkedInScraper._trigger_async_with_dataset` returns the
`snapshot_id` field of the JSON body on HTTP 200 (`None` when absent), and
on any other status raises an `APIError` whose message contains the status
code and the response text and whose `status_code` equals the HTTP status;
an `ok` outcome is only possible on status 200. -/
theorem linkedin_trigger_spec (resp : HttpResponse) :
    (resp.status = 200 →
      LinkedInScraper.trigger_async_with_dataset resp
        = .ok (alistLookup "snapshot_id" resp.jsonBody)) ∧
    (resp.status ≠ 200 →
      ∃ e : APIError,
        LinkedInScraper.trigger_async_with_dataset resp = .error e ∧
        e.status_code = resp.status ∧
        (∃ pre post, e.message = pre ++ toString resp.status ++ post) ∧
        (∃ pre, e.message = pre ++ resp.text)) ∧
    (∀ r, LinkedInScraper.trigger_async_with_dataset resp = .ok r →
      resp.status = 200) := by
  unfold LinkedInScraper.trigger_async_with_dataset
  by_cases h : resp.status = 200
  · simp [h]
  · refine ⟨fun hc => absurd hc h, fun _ => ?_, fun r hr => ?_⟩
    · refine ⟨⟨"Trigger failed (HTTP " ++ toString resp.status ++ "): "
          ++ resp.text, resp.status⟩, by simp [h], rfl,
        ⟨"Trigger failed (HTTP ", "): " ++ resp.text, ?_⟩,
        ⟨"Trigger failed (HTTP " ++ toString resp.status ++ "): ", rfl⟩⟩
      rw [← String.append_assoc]
    · simp [h] at hr

/-- Witness for C3: a 200 response with a snapshot id yields that id, and a
403 response yields an `APIError` carrying status 403 and the body text. -/
theorem linkedin_trigger_spec_witness :
    (LinkedInScraper.trigger_async_with_dataset
        ⟨200, [("snapshot_id", .str "s_1")], "ignored"⟩
      = .ok (alistLookup "snapshot_id" [("snapshot_id", .str "s_1")])) ∧
    (∃ e : APIError,
      LinkedInScraper.trigger_async_with_dataset ⟨403, [], "Forbidden"⟩
        = .error e ∧
      e.status_code = 403 ∧
      (∃ pre post, e.message = pre ++ toString 403 ++ post) ∧
      (∃ pre, e.message = pre ++ "Forbidden")) := by
  refine ⟨(linkedin_trigger_spec ⟨200, [("snapshot_id", .str "s_1")], "ignored"⟩).1 rfl, ?_⟩
  exact (linkedin_trigger_spec ⟨403, [], "Forbidden"⟩).2.1 (by decide)

/-- Every event the polling phase emits is a status check or a sleep of
exactly `interval` seconds. -/
theorem pollPhase_mem_cases (ready : Nat → Bool) (interval : Nat)
    (k : Nat) : ∀ (elapsed : Nat) (ev : WfEvent),
    ev ∈ (pollPhase ready interval k elapsed).1 →
      ev = .statusReq ∨ ev = .sleepSec interval := by
  induction k with
  | zero => intro elapsed ev h; simp [pollPhase] at h
  | succ k ih =>
      intro elapsed ev h
      by_cases hr : ready elapsed
      · simp only [pollPhase, if_pos hr, List.mem_singleton] at h
        exact Or.inl h
      · by_cases hk : k = 0
        · subst hk
          simp [pollPhase, if_neg hr] at h
          exact Or.inl h
        · simp only [pollPhase, if_neg hr, if_neg hk, List.mem_cons] at h
          rcases h with h | h | h
          · exact Or.inl h
          · exact Or.inr h
          · exact ih (elapsed + interval) ev h

/-- The polling phase reports no ready time exactly when the job is not
ready at any of the `k` check instants. -/
theorem pollPhase_none_iff (ready : Nat → Bool) (interval : Nat)
    (k : Nat) : ∀ elapsed : Nat,
    (pollPhase ready interval k elapsed).2 = Option.none ↔
      ∀ j < k, ready (elapsed + j * interval) = false := by
  induction k with
  | zero => intro elapsed; simp [pollPhase]
  | succ k ih =>
      intro elapsed
      by_cases hr : ready elapsed
      · simp only [pollPhase, if_pos hr]
        constructor
        · intro h; cases h
        · intro h
          have h0 := h 0 (Nat.succ_pos k)
          rw [Nat.zero_mul, Nat.add_zero, hr] at h0
          cases h0
      · by_cases hk : k = 0
        · subst hk
          simp only [pollPhase, if_neg hr, if_pos rfl]
          constructor
          · intro _ j hj
            have : j = 0 := by omega
            subst this
            rw [Nat.zero_mul, Nat.add_zero]
            exact Bool.not_eq_true _ |>.mp hr
          · intro _; rfl
        · simp only [pollPhase, if_neg hr, if_neg hk]
          rw [ih (elapsed + interval)]
          constructor
          · intro h j hj
            match j, hj with
            | 0, _ =>
                rw [Nat.zero_mul, Nat.add_zero]
                exact Bool.not_eq_true _ |>.mp hr
            | j + 1, hj =>
                have hjj := h j (by omega)
                rw [show elapsed + interval + j * interval
                      = elapsed + (j + 1) * interval by ring] at hjj
                exact hjj
          · intro h j hj
            have hjj := h (j + 1) (by omega)
            rw [show elapsed + (j + 1) * interval
                  = elapsed + interval + j * interval by ring] at hjj
            exact hjj

/-- The polling phase performs at least one status check. -/
theorem pollPhase_status_count (ready : Nat → Bool) (interval : Nat)
    (k elapsed : Nat) (hk : 0 < k) :
    1 ≤ (pollPhase ready interval k elapsed).1.countP isStatusEvent := by
  match k, hk with
  | k + 1, _ =>
      by_cases hr : ready elapsed
      · simp [pollPhase, if_pos hr, List.countP_cons, isStatusEvent]
      · by_cases hk0 : k = 0
        · subst hk0
          simp [pollPhase, if_neg hr, List.countP_cons, isStatusEvent]
        · simp only [pollPhase, if_neg hr, if_neg hk0, List.countP_cons,
            isStatusEvent, if_true, Bool.false_eq_true, if_false]
          omega

/-- C2: for every execution, the shared workflow executor sends exactly one
trigger request, re-checks the job status (at least once) with every sleep
between checks lasting `poll_interval` seconds, fetches the results exactly
once when the status becomes ready and applies the normalize function, and
when the job is not ready at any check instant within `poll_timeout` seconds
it performs no fetch and surfaces a timeout error; it succeeds exactly when
the job is ready at some check instant within the timeout. -/
theorem workflow_trigger_poll_fetch (env : WfEnv) (payload : List PyVal)
    (poll_interval poll_timeout : Nat) (normalize_func : PyVal → PyVal)
    (evs : List WfEvent) (r : ScrapeResult)
    (h : workflowExecute env payload poll_interval poll_timeout normalize_func
          = (evs, r)) :
    evs.countP isTriggerEvent = 1 ∧
    (∀ n, WfEvent.sleepSec n ∈ evs → n = poll_interval) ∧
    1 ≤ evs.countP isStatusEvent ∧
    (r.success = true →
      evs.countP isFetchEvent = 1 ∧ r.data = normalize_func env.raw ∧
      r.error = Option.none) ∧
    (r.success = false →
      evs.countP isFetchEvent = 0 ∧
      r.error = Option.some "Timeout: job not ready within poll_timeout seconds" ∧
      ∀ j ≤ poll_timeout / poll_interval,
        env.readyAt (j * poll_interval) = false) ∧
    (r.success = true ↔
      ∃ j ≤ poll_timeout / poll_interval,
        env.readyAt (j * poll_interval) = true) := by
  have hmem := pollPhase_mem_cases env.readyAt poll_interval
    (maxChecks poll_interval poll_timeout) 0
  have hstat := pollPhase_status_count env.readyAt poll_interval
    (maxChecks poll_interval poll_timeout) 0 (Nat.succ_pos _)
  have hnone := pollPhase_none_iff env.readyAt poll_interval
    (maxChecks poll_interval poll_timeout) 0
  have htrig0 : (pollPhase env.readyAt poll_interval
      (maxChecks poll_interval poll_timeout) 0).1.countP isTriggerEvent = 0 :=
    List.countP_eq_zero.mpr (fun a ha => by
      rcases hmem a ha with h1 | h1 <;> simp [h1, isTriggerEvent])
  have hfetch0 : (pollPhase env.readyAt poll_interval
      (maxChecks poll_interval poll_timeout) 0).1.countP isFetchEvent = 0 :=
    List.countP_eq_zero.mpr (fun a ha => by
      rcases hmem a ha with h1 | h1 <;> simp [h1, isFetchEvent])
  simp only [workflowExecute] at h
  rcases hp2 : (pollPhase env.readyAt poll_interval
      (maxChecks poll_interval poll_timeout) 0).2 with _ | e
  · rw [hp2] at h
    injection h with h1 h2
    subst h1
    subst h2
    have hready := hnone.mp hp2
    refine ⟨?_, ?_, ?_, ?_, ?_, ?_⟩
    · simp [List.countP_cons, isTriggerEvent, htrig0]
    · intro n hn
      rcases List.mem_cons.mp hn with h1 | h1
      · cases h1
      · rcases hmem _ h1 with h2 | h2
        · cases h2
        · injection h2
    · calc 1 ≤ (pollPhase env.readyAt poll_interval
            (maxChecks poll_interval poll_timeout) 0).1.countP isStatusEvent :=
            hstat
        _ ≤ _ := by simp [List.countP_cons, isStatusEvent]
    · intro hs; cases hs
    · refine fun _ => ⟨?_, rfl, fun j hj => ?_⟩
      · simp [List.countP_cons, isFetchEvent, hfetch0]
      · have := hready j (by simp [maxChecks]; omega)
        simpa using this
    · constructor
      · intro hs; cases hs
      · rintro ⟨j, hj, hready'⟩
        have := hready j (by simp [maxChecks]; omega)
        simp [hready'] at this
  · rw [hp2] at h
    injection h with h1 h2
    subst h1
    subst h2
    refine ⟨?_, ?_, ?_, ?_, ?_, ?_⟩
    · simp [List.countP_cons, List.countP_append, isTriggerEvent, htrig0]
    · intro n hn
      rcases List.mem_cons.mp hn with h1 | h1
      · cases h1
      · rcases List.mem_append.mp h1 with h2 | h2
        · rcases hmem _ h2 with h3 | h3
          · cases h3
          · injection h3
        · simp at h2
    · calc 1 ≤ (pollPhase env.readyAt poll_interval
            (maxChecks poll_interval poll_timeout) 0).1.countP isStatusEvent :=
            hstat
        _ ≤ _ := by simp [List.countP_cons, List.countP_append, isStatusEvent]
    · refine fun _ => ⟨?_, rfl, rfl⟩
      simp [List.countP_cons, List.countP_append, isFetchEvent, hfetch0]
    · intro hs; cases hs
    · constructor
      · intro _
        by_contra hno
        push_neg at hno
        have : (pollPhase env.readyAt poll_interval
            (maxChecks poll_interval poll_timeout) 0).2 = Option.none := by
          refine hnone.mpr fun j hj => ?_
          have hj' : j ≤ poll_timeout / poll_interval := by
            simp [maxChecks] at hj; omega
          have := hno j hj'
          simpa using this
        rw [hp2] at this
        cases this
      · intro _; rfl

/-- Witness for C2: a job ready from second 20 on, polled every 10 seconds
with a 180-second timeout, triggers once and fetches once. -/
theorem workflow_trigger_poll_fetch_witness :
    (workflowExecute
        { readyAt := fun t => decide (20 ≤ t), raw := .list [.str "row"] }
        [.dict [("url", .str "u")]] 10 180 id).1.countP isTriggerEvent = 1 ∧
    (workflowExecute
        { readyAt := fun t => decide (20 ≤ t), raw := .list [.str "row"] }
        [.dict [("url", .str "u")]] 10 180 id).1.countP isFetchEvent = 1 := by
  have h := workflow_trigger_poll_fetch
    { readyAt := fun t => decide (20 ≤ t), raw := .list [.str "row"] }
    [.dict [("url", .str "u")]] 10 180 id
    (workflowExecute
      { readyAt := fun t => decide (20 ≤ t), raw := .list [.str "row"] }
      [.dict [("url", .str "u")]] 10 180 id).1
    (workflowExecute
      { readyAt := fun t => decide (20 ≤ t), raw := .list [.str "row"] }
      [.dict [("url", .str "u")]] 10 180 id).2
    rfl
  exact ⟨h.1, (h.2.2.2.1 (by decide)).1⟩

/-- C1: batch fan-out shape of `_scrape_urls`: (a) a single string URL whose
workflow result data is a list of length exactly one yields that one result
with `url` set to the input and `data` unwrapped; (b) a list of URLs with
list data yields one `ScrapeResult` per `zip`-ped (url, item) pair, each
with `success = True`, the corresponding data item, and the total cost
divided by the number of data items (`None` when the total cost is falsy);
(c) in all other cases the workflow result is returned unchanged. -/
theorem scrape_urls_fanout (url : UrlArg) (result : ScrapeResult) :
    (∀ u d, url = .single u → result.data = .list [d] →
      TikTokScraper.scrapeUrlsPost url result
        = .one { result with url := Option.some u, data := d }) ∧
    (∀ us ds, url = .many us → result.data = .list ds →
      TikTokScraper.scrapeUrlsPost url result
        = .many ((us.zip ds).map fun ud =>
            { success := true, data := ud.2, url := Option.some ud.1,
              platform := result.platform, method := result.method,
              trigger_sent_at := result.trigger_sent_at,
              snapshot_id_received_at := result.snapshot_id_received_at,
              snapshot_polled_at := result.snapshot_polled_at,
              data_fetched_at := result.data_fetched_at,
              snapshot_id := result.snapshot_id,
              cost := if costTruthy result.cost then
                        result.cost.map (fun c => c / (ds.length : ℚ))
                      else Option.none })) ∧
    (∀ u, url = .single u → (∀ d, result.data ≠ .list [d]) →
      TikTokScraper.scrapeUrlsPost url result = .one result) ∧
    (∀ us, url = .many us → (∀ ds, result.data ≠ .list ds) →
      TikTokScraper.scrapeUrlsPost url result = .one result) := by
  refine ⟨?_, ?_, ?_, ?_⟩
  · rintro u d rfl hd
    simp only [TikTokScraper.scrapeUrlsPost]
    rw [hd]
  · rintro us ds rfl hd
    simp only [TikTokScraper.scrapeUrlsPost]
    rw [hd]
  · rintro u rfl hnd
    simp only [TikTokScraper.scrapeUrlsPost]
    rcases hd : result.data with _ | b | n | s | xs | kvs
    · rfl
    · rfl
    · rfl
    · rfl
    · match xs, hd with
      | [], _ => rfl
      | [d], hd => exact absurd hd (hnd d)
      | d :: e :: tl, _ => rfl
    · rfl
  · rintro us rfl hnd
    simp only [TikTokScraper.scrapeUrlsPost]
    rcases hd : result.data with _ | b | n | s | xs | kvs
    · rfl
    · rfl
    · rfl
    · rfl
    · exact absurd hd (hnd xs)
    · rfl

/-- Witness for C1: a single URL whose workflow data is a one-element list
is unwrapped, and a two-URL batch with two data rows fans out to two
results with the cost halved. -/
theorem scrape_urls_fanout_witness :
    (TikTokScraper.scrapeUrlsPost (.single "https://t/a")
        { success := true, data := .list [.int 7], cost := Option.some 4 }
      = .one { success := true, data := .int 7,
               url := Option.some "https://t/a", cost := Option.some 4 }) ∧
    (TikTokScraper.scrapeUrlsPost (.many ["https://t/a", "https://t/b"])
        { success := true, data := .list [.int 7, .int 8],
          cost := Option.some 4 }
      = .many
          [{ success := true, data := .int 7, url := Option.some "https://t/a",
             cost := Option.some 2 },
           { success := true, data := .int 8, url := Option.some "https://t/b",
             cost := Option.some 2 }]) := by
  constructor
  · exact (scrape_urls_fanout (.single "https://t/a")
      { success := true, data := .list [.int 7], cost := Option.some 4 }).1
      "https://t/a" (.int 7) rfl rfl
  · have h := (scrape_urls_fanout (.many ["https://t/a", "https://t/b"])
      { success := true, data := .list [.int 7, .int 8],
        cost := Option.some 4 }).2.1
      ["https://t/a", "https://t/b"] [.int 7, .int 8] rfl rfl
    rw [h]
    norm_num [costTruthy, List.zip]

/-- C4: the sync wrappers return exactly the value the corresponding async
method produces when awaited to completion inside the engine context
(`asyncio.run` of `async with self.engine: return await method(...)`), with
the same arguments and no transformation of the result. -/
theorem sync_async_equiv :
    (∀ (env : WfEnv) (nf : PyVal → PyVal)
       (vu : String → Except String Unit)
       (vul : List String → Except String Unit)
       (url : UrlArg) (country : Option String) (timeout : Nat),
      TikTokScraper.profiles_sync env nf vu vul url country timeout
        = asyncioRun (withEngine (asyncAwait
            (TikTokScraper.profiles env nf vu vul url country timeout))) ∧
      TikTokScraper.profiles_sync env nf vu vul url country timeout
        = TikTokScraper.profiles env nf vu vul url country timeout) ∧
    (∀ (env : WfEnv) (nf : PyVal → PyVal) (prompt : PromptArg)
       (c i e : PyVal) (interval : Nat) (pt : Option Nat),
      PerplexityScraper.search_sync env nf prompt c i e interval pt
        = asyncioRun (withEngine (asyncAwait
            (PerplexityScraper.search env nf prompt c i e interval pt))) ∧
      PerplexityScraper.search_sync env nf prompt c i e interval pt
        = PerplexityScraper.search env nf prompt c i e interval pt) :=
  ⟨fun _ _ _ _ _ _ _ => ⟨rfl, rfl⟩, fun _ _ _ _ _ _ _ _ => ⟨rfl, rfl⟩⟩

/-- Each event list of an executed workflow starts with its unique trigger
request, which carries the whole payload. -/
theorem workflowExecute_one_trigger (env : WfEnv) (payload : List PyVal)
    (poll_interval poll_timeout : Nat) (nf : PyVal → PyVal) :
    (workflowExecute env payload poll_interval poll_timeout nf).1.head?
      = Option.some (.triggerReq payload) ∧
    (workflowExecute env payload poll_interval poll_timeout nf).1.countP
      isTriggerEvent = 1 := by
  have htrig0 : (pollPhase env.readyAt poll_interval
      (maxChecks poll_interval poll_timeout) 0).1.countP isTriggerEvent = 0 :=
    List.countP_eq_zero.mpr (fun a ha => by
      rcases pollPhase_mem_cases env.readyAt poll_interval
        (maxChecks poll_interval poll_timeout) 0 a ha with h1 | h1 <;>
        simp [h1, isTriggerEvent])
  simp only [workflowExecute]
  rcases hp2 : (pollPhase env.readyAt poll_interval
      (maxChecks poll_interval poll_timeout) 0).2 with _ | e <;>
    simp [hp2, List.countP_cons, List.countP_append, isTriggerEvent, htrig0]

/-- C5 counterexample: a `TikTokScraper._scrape_urls` batch of two URLs
issues exactly one trigger HTTP request — carrying both inputs in a single
payload — and not one HTTP request per input as the claim states. -/
theorem batch_per_input_request_counterexample :
    ((TikTokScraper.scrape_urls
        { readyAt := fun _ => true, raw := .list [.int 1, .int 2] } id
        (.many ["https://t/a", "https://t/b"]) 240 Option.none).1.countP
        isTriggerEvent = 1) ∧
    ¬ ((TikTokScraper.scrape_urls
        { readyAt := fun _ => true, raw := .list [.int 1, .int 2] } id
        (.many ["https://t/a", "https://t/b"]) 240 Option.none).1.countP
        isTriggerEvent = ["https://t/a", "https://t/b"].length) := by
  constructor
  · rfl
  · intro h
    have h1 : (TikTokScraper.scrape_urls
        { readyAt := fun _ => true, raw := .list [.int 1, .int 2] } id
        (.many ["https://t/a", "https://t/b"]) 240 Option.none).1.countP
        isTriggerEvent = 1 := rfl
    rw [h1] at h
    exact absurd h (by decide)

/-- C5 amended: every batch operation over N URLs issues exactly one trigger
request, whose payload carries all N inputs; polling and fetching then
happen once for the whole batch, not per input. -/
theorem batch_single_trigger (env : WfEnv) (nf : PyVal → PyVal)
    (us : List String) (timeout : Nat) (country : Option String) :
    (TikTokScraper.scrape_urls env nf (.many us) timeout country).1.countP
      isTriggerEvent = 1 ∧
    ∃ payload : List PyVal,
      (TikTokScraper.scrape_urls env nf (.many us) timeout country).1.head?
        = Option.some (.triggerReq payload) ∧
      payload.length = us.length := by
  have h := workflowExecute_one_trigger env
    (us.map fun u => PyVal.dict [("url", .str u), ("country", .str (country.getD ""))])
    DEFAULT_POLL_INTERVAL timeout nf
  exact ⟨h.2, ⟨_, h.1, by simp⟩⟩

/-- C6 counterexample: `PerplexityScraper.search` rejects the present but
empty prompt `""` with `ValidationError`, a constraint on the value an input
holds, not on field presence. -/
theorem value_validation_counterexample :
    PerplexityScraper.search
        { readyAt := fun _ => true, raw := .list [] } id
        (.str "") .none .none .none 10 Option.none
      = .error (.validationError "Prompt is required") := rfl

/-- C6 amended: beyond field presence the repository does enforce input
validation on values — `search` raises `ValidationError "Prompt is
required"` exactly when the prompt argument is falsy, raises
`ValidationError "Each prompt must be a non-empty string"` exactly when the
prompt is truthy but some prompt item is empty or not a string, and succeeds
(no value-based rejection) otherwise. -/
theorem search_validation (env : WfEnv) (nf : PyVal → PyVal)
    (prompt : PromptArg) (c i e : PyVal) (interval : Nat)
    (pt : Option Nat) :
    (PerplexityScraper.search env nf prompt c i e interval pt
        = .error (.validationError "Prompt is required")
      ↔ pyTruthy (promptPyVal prompt) = false) ∧
    (PerplexityScraper.search env nf prompt c i e interval pt
        = .error (.validationError "Each prompt must be a non-empty string")
      ↔ pyTruthy (promptPyVal prompt) = true ∧
        (promptList prompt).all validPromptItem = false) ∧
    ((∃ v, PerplexityScraper.search env nf prompt c i e interval pt
        = .ok v)
      ↔ pyTruthy (promptPyVal prompt) = true ∧
        (promptList prompt).all validPromptItem = true) := by
  by_cases h1 : pyTruthy (promptPyVal prompt)
  · by_cases h2 : (promptList prompt).all validPromptItem
    · simp [PerplexityScraper.search, h1, h2]
    · have hall : (promptList prompt).all validPromptItem = false := by
        cases hb : (promptList prompt).all validPromptItem
        · rfl
        · exact absurd hb h2
      have hs : PerplexityScraper.search env nf prompt c i e interval pt
          = .error (.validationError "Each prompt must be a non-empty string") := by
        simp [PerplexityScraper.search, h1, hall]
      rw [hs]
      refine ⟨⟨fun hx => ?_, fun hx => ?_⟩, by simp [h1, hall], by simp [hall]⟩
      · injection hx with hy
        injection hy with hm
        exact absurd hm (by decide)
      · rw [h1] at hx
        cases hx
  · have hfalse : pyTruthy (promptPyVal prompt) = false := by
      cases hb : pyTruthy (promptPyVal prompt)
      · rfl
      · exact absurd hb h1
    have hs : PerplexityScraper.search env nf prompt c i e interval pt
        = .error (.validationError "Prompt is required") := by
      simp [PerplexityScraper.search, hfalse]
    rw [hs]
    refine ⟨by simp [hfalse], ⟨fun hx => ?_, fun hx => ?_⟩, by simp [hfalse]⟩
    · injection hx with hy
      injection hy with hm
      exact absurd hm (by decide)
    · rw [hfalse] at hx
      cases hx.1

/-- A successful association-list lookup returns a pair of the list. -/
theorem alistLookup_eq_some_mem {k : String} {v : PyVal} :
    ∀ l : List (String × PyVal), alistLookup k l = Option.some v → (k, v) ∈ l := by
  intro l
  induction l with
  | nil => intro h; cases h
  | cons kv rest ih =>
      intro h
      simp only [alistLookup] at h
      by_cases hk : kv.1 = k
      · rw [if_pos hk] at h
        injection h with h
        refine List.mem_cons.mpr (Or.inl ?_)
        rw [← hk, ← h]
      · rw [if_neg hk] at h
        exact List.mem_cons_of_mem _ (ih h)

/-- Lookup in a keyed map over a duplicate-free key list, after dropping the
`None` values: the key's image when the key is listed and its value is not
`None`, nothing otherwise. -/
theorem alistLookup_map_filter (g : String → PyVal) :
    ∀ l : List String, l.Nodup → ∀ k : String,
    alistLookup k ((l.map fun f => (f, g f)).filter fun kv => !isNone kv.2) =
      if k ∈ l ∧ isNone (g k) = false then Option.some (g k) else Option.none := by
  intro l
  induction l with
  | nil => intro _ k; simp [alistLookup]
  | cons f t ih =>
      intro hnd k
      have hft : f ∉ t := (List.nodup_cons.mp hnd).1
      have hnt : t.Nodup := (List.nodup_cons.mp hnd).2
      by_cases hf : isNone (g f) = false
      · simp only [List.map_cons, List.filter_cons, hf, Bool.not_false,
          if_true, alistLookup]
        by_cases hk : f = k
        · subst hk
          simp [hf]
        · rw [if_neg hk, ih hnt k]
          simp [List.mem_cons, Ne.symm hk]
      · have hf' : isNone (g f) = true := by
          cases hb : isNone (g f)
          · exact absurd hb hf
          · rfl
        simp only [List.map_cons, List.filter_cons, hf', Bool.not_true,
          Bool.false_eq_true, if_false]
        rw [ih hnt k]
        by_cases hk : f = k
        · subst hk
          simp [hft, hf']
        · simp [List.mem_cons, Ne.symm hk]

/-- The 74 Amazon dataclass field names are pairwise distinct. -/
theorem amazonFields_nodup : amazonFields.Nodup := by decide

/-- String-list `contains` agrees with membership. -/
theorem contains_iff_mem (l : List String) (a : String) :
    l.contains a = true ↔ a ∈ l := by
  induction l with
  | nil => simp
  | cons b t ih =>
      simp only [List.contains_cons, Bool.or_eq_true, beq_iff_eq,
        List.mem_cons, ih]

/-- C9: `AmazonProductResult.from_dict` never raises — unknown keys are
silently dropped before construction — and for every dictionary with
distinct keys that are all field names and values that are all non-`None`,
`from_dict` then `to_dict` reproduces exactly the original dictionary (as a
key-value mapping). -/
theorem amazon_round_trip (d : List (String × PyVal)) :
    (∃ r, AmazonProductResult.from_dict d = .ok r) ∧
    ((d.map Prod.fst).Nodup →
     (∀ kv ∈ d, amazonFields.contains kv.1 = true ∧ isNone kv.2 = false) →
     ∃ r, AmazonProductResult.from_dict d = .ok r ∧
       ∀ k, alistLookup k (AmazonProductResult.to_dict r)
              = alistLookup k d) := by
  have hfiltered : ∀ dd : List (String × PyVal),
      ((dd.filter fun kv => amazonFields.contains kv.1).all
        fun kv => amazonFields.contains kv.1) = true := by
    intro dd
    exact List.all_eq_true.mpr fun a ha => (List.mem_filter.mp ha).2
  constructor
  · unfold AmazonProductResult.from_dict AmazonProductResult.dataclassInit
    rw [if_pos (hfiltered d)]
    exact ⟨_, rfl⟩
  · intro hnd hall
    have hself : d.filter (fun kv => amazonFields.contains kv.1) = d :=
      List.filter_eq_self.mpr fun a ha => (hall a ha).1
    refine ⟨amazonFields.map fun f => (f, (alistLookup f d).getD .none), ?_, ?_⟩
    · unfold AmazonProductResult.from_dict AmazonProductResult.dataclassInit
      rw [hself, if_pos (by rw [← hself] at hall ⊢; exact hfiltered d)]
    · intro k
      unfold AmazonProductResult.to_dict
      rw [alistLookup_map_filter (fun f => (alistLookup f d).getD .none)
        amazonFields amazonFields_nodup k]
      rcases hkd : alistLookup k d with _ | v
      · rw [if_neg]
        rintro ⟨-, hc2⟩
        simp [isNone] at hc2
      · have hm := alistLookup_eq_some_mem d hkd
        have hkv := hall (k, v) hm
        rw [if_pos]
        · rfl
        · exact ⟨(contains_iff_mem amazonFields k).mp hkv.1, hkv.2⟩

/-- Witness for C9: a two-key dictionary of known fields with non-`None`
values survives the `from_dict`/`to_dict` round trip. -/
theorem amazon_round_trip_witness :
    ∃ r, AmazonProductResult.from_dict
        [("title", .str "Widget"), ("asin", .str "B00X")] = .ok r ∧
      ∀ k, alistLookup k (AmazonProductResult.to_dict r)
            = alistLookup k [("title", .str "Widget"), ("asin", .str "B00X")] :=
  (amazon_round_trip [("title", .str "Widget"), ("asin", .str "B00X")]).2
    (by decide) (by decide)

/-- C10 (code bug): called while an event loop is running,
`BaseAPI._execute_sync` raises its guard `RuntimeError` inside the `try`
suite, so the `except RuntimeError` handler catches it and invokes
`asyncio.run` anyway, which then fails with a different `RuntimeError`; the
intended friendly error never propagates. -/
theorem execute_sync_running_loop_bug :
    BaseAPI.execute_sync .running (.str "payload")
      = (true,
         .error "asyncio.run() cannot be called from a running event loop") :=
  rfl

end BrightData
